import Mathlib

/-!
Verification of the ingredient-matching core of the fridge-ai backend
(`src/main.py`), together with the pure parts of the Clarifai response
post-processing (`call_clarifai`) and the request-validation prefix of the
`/ai-recipes/` endpoint (`ai_recipes`).

Modelling conventions:
* Python strings are Lean `String`; Python's lexicographic string order
  (code-point by code-point) is modelled by the boolean comparison
  `charListLe` on the underlying character lists.
* Python floats carrying Clarifai confidence scores are modelled as exact
  rationals `ℚ`; the code only ever compares and sorts them.
* Python `sorted` is a stable sort; `sorted(xs, key=k, reverse=True)` is the
  stable descending sort by `k`, modelled by `List.insertionSort` with the
  relation "my key is ≥ yours" (Mathlib's `insertionSort` is stable).
* Python sets are modelled by duplicate-free lists obtained with
  `List.dedup`; the code only uses membership, intersection/difference
  restricted to a recipe's ingredient list, cardinality, and sorted listing,
  all of which depend only on the underlying set.
-/

/-- A detected food item, as produced by Clarifai post-processing or sent by
the frontend: Python dict `{"name": str, "score": float}` / pydantic model
`DetectedItem`. -/
structure DetectedItem where
  name : String
  score : ℚ
deriving Repr, DecidableEq

/-- One entry of the recipe catalog `RECIPE_DB` in `src/main.py`. -/
structure Recipe where
  name : String
  ingredients : List String
  steps : List String
deriving Repr, DecidableEq

/-- A recipe suggestion as built by `compute_recipe_suggestions`: the Python
dict with keys `name`, `ingredients`, `steps`, `have`, `missing`, `total`.
The Python key `have` is rendered as the field `hav` because `have` is a
Lean keyword. -/
structure Suggestion where
  name : String
  ingredients : List String
  steps : List String
  hav : List String
  missing : List String
  total : Nat
deriving Repr, DecidableEq

/-- The fixed in-memory recipe catalog `RECIPE_DB` of `src/main.py`. -/
def RECIPE_DB : List Recipe := [
  { name := "Tomato Mozzarella Sandwich",
    ingredients := ["bread", "cheese", "tomato", "lettuce"],
    steps := [
      "Slice the bread and toast if desired.",
      "Wash and slice tomatoes and lettuce.",
      "Layer cheese, tomato, and lettuce on the bread.",
      "Season with salt, pepper and a bit of oil or butter."] },
  { name := "Simple Cheese Omelette",
    ingredients := ["egg", "cheese", "butter"],
    steps := [
      "Beat the eggs in a bowl.",
      "Melt butter in a pan.",
      "Pour in the eggs and let them set.",
      "Add cheese, fold and cook briefly."] },
  { name := "Garlic Bread",
    ingredients := ["bread", "butter", "garlic"],
    steps := [
      "Preheat the oven.",
      "Mix butter with minced garlic.",
      "Spread the mixture on the bread.",
      "Bake until golden brown."] },
  { name := "Shrimp Pasta",
    ingredients := ["shrimp", "garlic", "butter", "pasta", "cheese"],
    steps := [
      "Cook pasta in salted water until al dente.",
      "Heat butter and garlic in a pan.",
      "Sear the shrimp briefly.",
      "Add pasta, toss, sprinkle with cheese and serve."] }
]

/-- Lexicographic (code-point) comparison of character lists: Python's `<=`
on strings. -/
def charListLe : List Char → List Char → Bool
  | [], _ => true
  | _ :: _, [] => false
  | a :: as, b :: bs => if a < b then true else if b < a then false else charListLe as bs

/-- Python's `<=` on strings (lexicographic by code point). -/
def strLe (a b : String) : Prop := charListLe a.data b.data = true

instance : DecidableRel strLe := fun a b =>
  inferInstanceAs (Decidable (charListLe a.data b.data = true))

/-- Python `sorted` on a list of strings. -/
def sortStrings (l : List String) : List String := l.insertionSort strLe

/-- The set `{item["name"] for item in detected_items}` built by
`compute_recipe_suggestions`, kept as the list of names: the code only ever
uses it through membership tests. -/
def detectedNames (detected_items : List DetectedItem) : List String :=
  detected_items.map DetectedItem.name

/-- The body of the loop in `compute_recipe_suggestions` for one recipe:
`have = set(recipe["ingredients"]) & detected_names`,
`missing = set(recipe["ingredients"]) - detected_names`, and the suggestion
dict appended when `have` is non-empty (`None` models "not appended").
`sorted(list(...))` of a Python set is the sorted duplicate-free listing,
here `sortStrings` of the deduplicated filtered ingredient list;
`total = len(set(recipe["ingredients"]))`. -/
def mkSuggestion (detected_names : List String) (recipe : Recipe) : Option Suggestion :=
  let ingredients := recipe.ingredients.dedup
  let hav := ingredients.filter (fun x => x ∈ detected_names)
  let missing := ingredients.filter (fun x => x ∉ detected_names)
  if hav.isEmpty then none
  else some { name := recipe.name, ingredients := recipe.ingredients,
              steps := recipe.steps, hav := sortStrings hav,
              missing := sortStrings missing, total := ingredients.length }

/-- "My `have` is at least as large as yours": the relation under which the
stable descending sort `sorted(suggestions, key=lambda r: len(r["have"]),
reverse=True)` is an insertion sort. -/
def sugGE (a b : Suggestion) : Prop := b.hav.length ≤ a.hav.length

instance : DecidableRel sugGE := fun a b =>
  inferInstanceAs (Decidable (b.hav.length ≤ a.hav.length))

instance : IsTotal Suggestion sugGE := ⟨fun a b => Nat.le_total b.hav.length a.hav.length⟩

instance : IsTrans Suggestion sugGE := ⟨fun _ _ _ h1 h2 => Nat.le_trans h2 h1⟩

/-- The pre-sort `suggestions` list of `compute_recipe_suggestions`, built by
looping over the catalog in order, generalized over the catalog. -/
def rawSuggestionsOver (db : List Recipe) (detected_names : List String) : List Suggestion :=
  db.filterMap (mkSuggestion detected_names)

/-- `compute_recipe_suggestions` generalized over the catalog: build the
suggestion list in catalog order, then stably sort by `len(have)`
descending. -/
def compute_recipe_suggestionsOver (db : List Recipe) (detected_items : List DetectedItem) :
    List Suggestion :=
  (rawSuggestionsOver db (detectedNames detected_items)).insertionSort sugGE

/-- `compute_recipe_suggestions` from `src/main.py` (its catalog is the
module-level `RECIPE_DB`). -/
def compute_recipe_suggestions (detected_items : List DetectedItem) : List Suggestion :=
  compute_recipe_suggestionsOver RECIPE_DB detected_items

/-- Python `str.lower()` (over the basic latin range, which covers every
string this backend handles), applied characterwise to the underlying
character list. -/
def lowerString (s : String) : String := ⟨s.data.map Char.toLower⟩

/-- `CONFIDENCE_THRESHOLD = 0.05` from `src/main.py` (scores are modelled as
exact rationals, so the threshold is exactly 5/100). -/
def CONFIDENCE_THRESHOLD : ℚ := mkRat 5 100

/-- One entry of the `concepts` array of a Clarifai response:
`{"name": ..., "value": ...}`. -/
structure ClarifaiConcept where
  name : String
  value : ℚ
deriving Repr, DecidableEq

/-- One entry of the `outputs` array of a Clarifai response; the code reads
`outputs[0]["data"]["concepts"]`. -/
structure ClarifaiOutput where
  concepts : List ClarifaiConcept
deriving Repr, DecidableEq

/-- A parsed Clarifai JSON response body: `status.code` and `outputs`. -/
structure ClarifaiResponse where
  statusCode : Int
  outputs : List ClarifaiOutput
deriving Repr, DecidableEq

/-- "My score is at least as large as yours": the relation under which the
stable descending sort `sorted(items, key=lambda x: x["score"],
reverse=True)` is an insertion sort. -/
def itemGE (a b : DetectedItem) : Prop := b.score ≤ a.score

instance : DecidableRel itemGE := fun a b =>
  inferInstanceAs (Decidable (b.score ≤ a.score))

instance : IsTotal DetectedItem itemGE := ⟨fun a b => le_total b.score a.score⟩

instance : IsTrans DetectedItem itemGE := ⟨fun _ _ _ h1 h2 => le_trans h2 h1⟩

/-- The response post-processing of `call_clarifai` in `src/main.py`, from
the parsed JSON body on: reject a non-`10000` status code, return `[]` when
`outputs` is empty, and otherwise lower-case the concept names, keep the
concepts whose value reaches `CONFIDENCE_THRESHOLD`, and sort by score
descending. (The earlier missing-`CLARIFAI_PAT` and HTTP-error aborts happen
before any response body exists and also raise, like the `error` branch
here.) -/
def call_clarifai (resp : ClarifaiResponse) : Except String (List DetectedItem) :=
  if resp.statusCode ≠ 10000 then
    Except.error "Clarifai status error"
  else
    match resp.outputs with
    | [] => Except.ok []
    | output :: _ =>
      let items := (output.concepts.filter
          (fun c => CONFIDENCE_THRESHOLD ≤ c.value)).map
        (fun c => { name := lowerString c.name, score := c.value : DetectedItem })
      Except.ok (items.insertionSort itemGE)

/-- Outcome of the request-validation prefix of the `/ai-recipes/` handler:
either an `HTTPException` with a status code and detail string, or control
reaching the OpenAI chat-completion call with the assembled ingredient
list. -/
inductive AiRecipesStep where
  | httpError (status : Nat) (detail : String)
  | callOpenAI (ingredient_list : List String)
deriving Repr, DecidableEq

/-- The request-validation prefix of the `/ai-recipes/` endpoint in
`src/main.py`: raise 500 when `OPENAI_API_KEY` is falsy (unset, modelled
`none`, or empty), else build
`[item.name.lower() for item in payload.items if item.name]`
and raise 400 when it is empty; otherwise proceed to the OpenAI call. The
call itself is external I/O and out of scope. -/
def ai_recipes (OPENAI_API_KEY : Option String) (items : List DetectedItem) : AiRecipesStep :=
  if OPENAI_API_KEY.getD "" = "" then
    AiRecipesStep.httpError 500 "OPENAI_API_KEY not configured"
  else
    let ingredient_list :=
      (items.filter (fun item => item.name ≠ "")).map (fun item => lowerString item.name)
    if ingredient_list.isEmpty then
      AiRecipesStep.httpError 400 "No ingredients provided"
    else
      AiRecipesStep.callOpenAI ingredient_list

/-- Remove later-shadowed duplicate names from a detected-item list, keeping
one item per name. -/
def dedupByName : List DetectedItem → List DetectedItem
  | [] => []
  | item :: rest =>
    if item.name ∈ rest.map DetectedItem.name then dedupByName rest
    else item :: dedupByName rest

/-! ### Helper lemmas about the string order and `sortStrings` -/

theorem charListLe_total : ∀ as bs : List Char, charListLe as bs = true ∨ charListLe bs as = true
  | [], _ => Or.inl rfl
  | _ :: _, [] => Or.inr rfl
  | a :: as, b :: bs => by
    rcases lt_trichotomy a b with h | h | h
    · left; simp [charListLe, h]
    · subst h
      rcases charListLe_total as bs with ih | ih
      · left; simp [charListLe, lt_irrefl, ih]
      · right; simp [charListLe, lt_irrefl, ih]
    · right; simp [charListLe, h]

theorem charListLe_trans : ∀ as bs cs : List Char, charListLe as bs = true →
    charListLe bs cs = true → charListLe as cs = true
  | [], _, _, _, _ => rfl
  | _ :: _, [], _, h1, _ => by simp [charListLe] at h1
  | _ :: _, _ :: _, [], _, h2 => by simp [charListLe] at h2
  | a :: as, b :: bs, c :: cs, h1, h2 => by
    by_cases hab : a < b
    · have hbc : b ≤ c := by
        by_cases h : b < c
        · exact le_of_lt h
        · by_cases h' : c < b
          · simp [charListLe, h, h'] at h2
          · exact le_of_not_lt h'
      simp [charListLe, lt_of_lt_of_le hab hbc]
    · by_cases hba : b < a
      · simp [charListLe, hab, hba] at h1
      · obtain rfl : a = b := le_antisymm (le_of_not_lt hba) (le_of_not_lt hab)
        have h1' : charListLe as bs = true := by simpa [charListLe, lt_irrefl] using h1
        by_cases hac : a < c
        · simp [charListLe, hac]
        · by_cases hca : c < a
          · simp [charListLe, hac, hca] at h2
          · obtain rfl : a = c := le_antisymm (le_of_not_lt hca) (le_of_not_lt hac)
            have h2' : charListLe bs cs = true := by
              simpa [charListLe, lt_irrefl] using h2
            simpa [charListLe, lt_irrefl] using charListLe_trans as bs cs h1' h2'

instance : IsTotal String strLe := ⟨fun a b => charListLe_total a.data b.data⟩

instance : IsTrans String strLe := ⟨fun a b c => charListLe_trans a.data b.data c.data⟩

theorem mem_sortStrings {x : String} {l : List String} : x ∈ sortStrings l ↔ x ∈ l :=
  List.mem_insertionSort strLe

theorem sortStrings_perm (l : List String) : List.Perm (sortStrings l) l :=
  List.perm_insertionSort strLe l

theorem sortStrings_pairwise (l : List String) : (sortStrings l).Pairwise strLe :=
  List.sorted_insertionSort strLe l

theorem sortStrings_nodup {l : List String} (h : l.Nodup) : (sortStrings l).Nodup :=
  ((sortStrings_perm l).nodup_iff).mpr h

theorem sortStrings_ne_nil {l : List String} (h : l ≠ []) : sortStrings l ≠ [] := by
  intro hs
  exact h ((hs ▸ sortStrings_perm l).symm.eq_nil)

/-! ### Helper lemmas about the matcher -/

/-- Facts about the concrete catalog: each recipe's ingredient list is
duplicate-free. -/
theorem recipeDB_ingredients_nodup : ∀ r ∈ RECIPE_DB, r.ingredients.Nodup := by decide

/-- Facts about the concrete catalog: recipe names are distinct, so a name
determines the catalog entry. -/
theorem recipeDB_name_inj :
    ∀ r₁ ∈ RECIPE_DB, ∀ r₂ ∈ RECIPE_DB, r₁.name = r₂.name → r₁ = r₂ := by decide

theorem mkSuggestion_eq_some {names : List String} {r : Recipe} {s : Suggestion}
    (h : mkSuggestion names r = some s) :
    s = { name := r.name, ingredients := r.ingredients, steps := r.steps,
          hav := sortStrings (r.ingredients.dedup.filter (fun x => x ∈ names)),
          missing := sortStrings (r.ingredients.dedup.filter (fun x => x ∉ names)),
          total := r.ingredients.dedup.length } ∧
      r.ingredients.dedup.filter (fun x => x ∈ names) ≠ [] := by
  unfold mkSuggestion at h
  by_cases he : (r.ingredients.dedup.filter (fun x => x ∈ names)).isEmpty
  · simp [he] at h
  · simp only [he, Bool.false_eq_true, if_false, Option.some.injEq] at h
    exact ⟨h.symm, by simpa using he⟩

theorem mkSuggestion_eq_some_of {names : List String} {r : Recipe}
    (h : r.ingredients.dedup.filter (fun x => x ∈ names) ≠ []) :
    mkSuggestion names r =
      some { name := r.name, ingredients := r.ingredients, steps := r.steps,
             hav := sortStrings (r.ingredients.dedup.filter (fun x => x ∈ names)),
             missing := sortStrings (r.ingredients.dedup.filter (fun x => x ∉ names)),
             total := r.ingredients.dedup.length } := by
  unfold mkSuggestion
  simp [List.isEmpty_iff, h]

theorem mem_compute_iff {d : List DetectedItem} {s : Suggestion} :
    s ∈ compute_recipe_suggestions d ↔
      ∃ r ∈ RECIPE_DB, mkSuggestion (detectedNames d) r = some s := by
  unfold compute_recipe_suggestions compute_recipe_suggestionsOver rawSuggestionsOver
  rw [List.mem_insertionSort]
  exact List.mem_filterMap

/-! ### Claim theorems -/

/-- C1: for every detected-item sequence and every suggestion returned by
`compute_recipe_suggestions`, the suggestion is well-formed: its `have` and
`missing` fields, read as sets, are disjoint and their union is the set of
the recipe's ingredients; both are sorted ascending (`strLe`, Python's
string order) and duplicate-free; and `total` equals the number of the
recipe's ingredients. -/
theorem compute_recipe_suggestions_wellformed (d : List DetectedItem) (s : Suggestion)
    (hs : s ∈ compute_recipe_suggestions d) :
    (∀ x, (x ∈ s.hav ∨ x ∈ s.missing) ↔ x ∈ s.ingredients) ∧
    (∀ x, x ∈ s.hav → x ∉ s.missing) ∧
    (s.hav.Pairwise strLe ∧ s.hav.Nodup) ∧
    (s.missing.Pairwise strLe ∧ s.missing.Nodup) ∧
    s.total = s.ingredients.length := by
  obtain ⟨r, hr, hmk⟩ := mem_compute_iff.mp hs
  obtain ⟨rfl, -⟩ := mkSuggestion_eq_some hmk
  refine ⟨?_, ?_, ⟨?_, ?_⟩, ⟨?_, ?_⟩, ?_⟩
  · intro x
    simp only [mem_sortStrings, List.mem_filter, List.mem_dedup, decide_eq_true_eq]
    by_cases hx : x ∈ detectedNames d <;> simp [hx]
  · intro x
    simp only [mem_sortStrings, List.mem_filter, List.mem_dedup, decide_eq_true_eq]
    tauto
  · exact sortStrings_pairwise _
  · exact sortStrings_nodup (r.ingredients.nodup_dedup.filter _)
  · exact sortStrings_pairwise _
  · exact sortStrings_nodup (r.ingredients.nodup_dedup.filter _)
  · show r.ingredients.dedup.length = r.ingredients.length
    rw [List.dedup_eq_self.mpr (recipeDB_ingredients_nodup r hr)]

/-- The suggestion that `compute_recipe_suggestions` produces for the
"Tomato Mozzarella Sandwich" recipe when only `bread` is detected. -/
def breadSandwichSuggestion : Suggestion :=
  { name := "Tomato Mozzarella Sandwich",
    ingredients := ["bread", "cheese", "tomato", "lettuce"],
    steps := [
      "Slice the bread and toast if desired.",
      "Wash and slice tomatoes and lettuce.",
      "Layer cheese, tomato, and lettuce on the bread.",
      "Season with salt, pepper and a bit of oil or butter."],
    hav := ["bread"],
    missing := ["cheese", "lettuce", "tomato"],
    total := 4 }

/-- Witness for C1 at the concrete input `[{"name": "bread", "score": 1}]`
and the sandwich suggestion it returns. -/
theorem compute_recipe_suggestions_wellformed_witness :
    (∀ x, (x ∈ breadSandwichSuggestion.hav ∨ x ∈ breadSandwichSuggestion.missing) ↔
        x ∈ breadSandwichSuggestion.ingredients) ∧
    (∀ x, x ∈ breadSandwichSuggestion.hav → x ∉ breadSandwichSuggestion.missing) ∧
    (breadSandwichSuggestion.hav.Pairwise strLe ∧ breadSandwichSuggestion.hav.Nodup) ∧
    (breadSandwichSuggestion.missing.Pairwise strLe ∧ breadSandwichSuggestion.missing.Nodup) ∧
    breadSandwichSuggestion.total = breadSandwichSuggestion.ingredients.length :=
  compute_recipe_suggestions_wellformed [{ name := "bread", score := 1 }]
    breadSandwichSuggestion (by decide)

/-- C2: the output of `compute_recipe_suggestions` is sorted by `len(have)`
descending, and the suggestions of any fixed `|have|` size appear exactly in
the order of the pre-sort list built by looping over the catalog (Python's
`sorted` is stable), i.e. in catalog order. -/
theorem compute_recipe_suggestions_sorted_stable (d : List DetectedItem) :
    (compute_recipe_suggestions d).Pairwise (fun a b => b.hav.length ≤ a.hav.length) ∧
    ∀ k : Nat,
      (compute_recipe_suggestions d).filter (fun s => s.hav.length = k) =
        (rawSuggestionsOver RECIPE_DB (detectedNames d)).filter
          (fun s => s.hav.length = k) := by
  have hdef : compute_recipe_suggestions d =
      (rawSuggestionsOver RECIPE_DB (detectedNames d)).insertionSort sugGE := rfl
  constructor
  · rw [hdef]
    exact (List.sorted_insertionSort sugGE _).imp (fun h => h)
  · intro k
    rw [hdef]
    set raw := rawSuggestionsOver RECIPE_DB (detectedNames d) with hraw
    set p : Suggestion → Bool := fun s => decide (s.hav.length = k) with hp
    have hsub : List.Sublist (raw.filter p) (raw.insertionSort sugGE) := by
      apply List.sublist_insertionSort
      · apply List.pairwise_of_forall_mem_list
        intro a ha b hb
        have ha' : a.hav.length = k := by simpa [hp] using List.of_mem_filter ha
        have hb' : b.hav.length = k := by simpa [hp] using List.of_mem_filter hb
        show b.hav.length ≤ a.hav.length
        rw [ha', hb']
      · exact List.filter_sublist raw
    have he : (raw.filter p).filter p = raw.filter p :=
      List.filter_eq_self.mpr (fun a ha => List.of_mem_filter ha)
    have hsub2 : List.Sublist (raw.filter p) ((raw.insertionSort sugGE).filter p) :=
      he ▸ hsub.filter p
    have hperm : List.Perm ((raw.insertionSort sugGE).filter p) (raw.filter p) :=
      (List.perm_insertionSort sugGE raw).filter p
    exact (hsub2.eq_of_length hperm.length_eq.symm).symm

/-- The "Garlic Bread" entry of the catalog, for concrete instantiations. -/
def garlicBreadRecipe : Recipe :=
  { name := "Garlic Bread",
    ingredients := ["bread", "butter", "garlic"],
    steps := [
      "Preheat the oven.",
      "Mix butter with minced garlic.",
      "Spread the mixture on the bread.",
      "Bake until golden brown."] }

/-- C3: a catalog recipe appears in the output of
`compute_recipe_suggestions` iff its ingredient set meets the detected
names, and every returned suggestion has a non-empty `have`. -/
theorem compute_recipe_suggestions_inclusion (d : List DetectedItem) (r : Recipe)
    (hr : r ∈ RECIPE_DB) :
    ((∃ s ∈ compute_recipe_suggestions d, s.name = r.name) ↔
      ∃ x ∈ r.ingredients, x ∈ detectedNames d) ∧
    ∀ s ∈ compute_recipe_suggestions d, s.hav ≠ [] := by
  constructor
  · constructor
    · rintro ⟨s, hs, hname⟩
      obtain ⟨r', hr', hmk⟩ := mem_compute_iff.mp hs
      obtain ⟨hrec, hne⟩ := mkSuggestion_eq_some hmk
      have hname' : r'.name = r.name := by rw [hrec] at hname; exact hname
      obtain rfl : r' = r := recipeDB_name_inj r' hr' r hr hname'
      obtain ⟨x, hx⟩ := List.exists_mem_of_ne_nil _ hne
      have hx' := List.mem_filter.mp hx
      exact ⟨x, List.mem_dedup.mp hx'.1, by simpa using hx'.2⟩
    · rintro ⟨x, hxi, hxd⟩
      have hne : r.ingredients.dedup.filter (fun y => y ∈ detectedNames d) ≠ [] := by
        intro h0
        have hx : x ∈ r.ingredients.dedup.filter (fun y => y ∈ detectedNames d) :=
          List.mem_filter.mpr ⟨List.mem_dedup.mpr hxi, by simpa using hxd⟩
        rw [h0] at hx
        exact List.not_mem_nil x hx
      exact ⟨_, mem_compute_iff.mpr ⟨r, hr, mkSuggestion_eq_some_of hne⟩, rfl⟩
  · intro s hs
    obtain ⟨r', hr', hmk⟩ := mem_compute_iff.mp hs
    obtain ⟨hrec, hne⟩ := mkSuggestion_eq_some hmk
    rw [hrec]
    exact sortStrings_ne_nil hne

/-- Witness for C3 at the catalog entry "Garlic Bread" and the concrete
input `[{"name": "garlic", "score": 1}]`. -/
theorem compute_recipe_suggestions_inclusion_witness :
    ((∃ s ∈ compute_recipe_suggestions [{ name := "garlic", score := 1 }],
        s.name = garlicBreadRecipe.name) ↔
      ∃ x ∈ garlicBreadRecipe.ingredients,
        x ∈ detectedNames [{ name := "garlic", score := 1 }]) ∧
    ∀ s ∈ compute_recipe_suggestions [{ name := "garlic", score := 1 }], s.hav ≠ [] :=
  compute_recipe_suggestions_inclusion [{ name := "garlic", score := 1 }]
    garlicBreadRecipe (by decide)

/-- C4: the empty detected-item sequence yields the empty suggestion list —
for any catalog, in particular the reference one, which is non-empty; the
empty input is a normal result, not an error. -/
theorem compute_recipe_suggestions_empty_input (db : List Recipe) :
    compute_recipe_suggestionsOver db [] = [] ∧
    compute_recipe_suggestions [] = [] ∧ RECIPE_DB ≠ [] := by
  refine ⟨?_, by decide, by decide⟩
  unfold compute_recipe_suggestionsOver rawSuggestionsOver
  have h : db.filterMap (mkSuggestion (detectedNames [])) = [] := by
    rw [List.filterMap_eq_nil_iff]
    intro r _
    unfold mkSuggestion
    simp [detectedNames]
  rw [h]
  rfl

/-- `filterMap` only looks at its function's values on list members. -/
theorem filterMap_congr_mem {α β : Type} {f g : α → Option β} :
    ∀ {l : List α}, (∀ a ∈ l, f a = g a) → l.filterMap f = l.filterMap g
  | [], _ => rfl
  | a :: l, h => by
    rw [List.filterMap_cons, List.filterMap_cons, h a (List.mem_cons_self a l),
      filterMap_congr_mem (fun b hb => h b (List.mem_cons_of_mem a hb))]

/-- `mkSuggestion` only looks at the detected-name set through membership of
the recipe's own ingredients. -/
theorem mkSuggestion_congr {n₁ n₂ : List String} {r : Recipe}
    (h : ∀ x ∈ r.ingredients, (x ∈ n₁ ↔ x ∈ n₂)) :
    mkSuggestion n₁ r = mkSuggestion n₂ r := by
  have h1 : r.ingredients.dedup.filter (fun x => x ∈ n₁) =
      r.ingredients.dedup.filter (fun x => x ∈ n₂) :=
    List.filter_congr (fun x hx =>
      decide_eq_decide.mpr (h x (List.mem_dedup.mp hx)))
  have h2 : r.ingredients.dedup.filter (fun x => x ∉ n₁) =
      r.ingredients.dedup.filter (fun x => x ∉ n₂) :=
    List.filter_congr (fun x hx =>
      decide_eq_decide.mpr (not_congr (h x (List.mem_dedup.mp hx))))
  simp only [mkSuggestion, h1, h2]

/-- C5: detected items whose names occur in no catalog ingredient list
contribute nothing: appending them leaves the output unchanged, and they
cause no error; in particular detecting only `durian` yields the empty
list. -/
theorem compute_recipe_suggestions_unmatched_names (d n : List DetectedItem)
    (hn : ∀ item ∈ n, ∀ r ∈ RECIPE_DB, item.name ∉ r.ingredients) :
    compute_recipe_suggestions (d ++ n) = compute_recipe_suggestions d ∧
    compute_recipe_suggestions [{ name := "durian", score := 1 }] = [] := by
  refine ⟨?_, by decide⟩
  unfold compute_recipe_suggestions compute_recipe_suggestionsOver rawSuggestionsOver
  refine congrArg (List.insertionSort sugGE) (filterMap_congr_mem ?_)
  intro r hr
  refine mkSuggestion_congr ?_
  intro x hx
  simp only [detectedNames, List.map_append, List.mem_append]
  constructor
  · rintro (h | h)
    · exact h
    · obtain ⟨item, hitem, rfl⟩ := List.mem_map.mp h
      exact absurd hx (hn item hitem r hr)
  · exact Or.inl

/-- Witness for C5 with `d = [{"name": "bread"}]` and an appended list whose
single name `zzz` occurs in no recipe. -/
theorem compute_recipe_suggestions_unmatched_names_witness :
    compute_recipe_suggestions
        ([{ name := "bread", score := 1 }] ++ [{ name := "zzz", score := 1 }]) =
      compute_recipe_suggestions [{ name := "bread", score := 1 }] ∧
    compute_recipe_suggestions [{ name := "durian", score := 1 }] = [] :=
  compute_recipe_suggestions_unmatched_names
    [{ name := "bread", score := 1 }] [{ name := "zzz", score := 1 }] (by decide)

/-- Removing later-shadowed duplicate names does not change the name set. -/
theorem mem_detectedNames_dedupByName (x : String) :
    ∀ d : List DetectedItem,
      x ∈ (dedupByName d).map DetectedItem.name ↔ x ∈ d.map DetectedItem.name
  | [] => Iff.rfl
  | item :: rest => by
    rw [dedupByName]
    by_cases hmem : item.name ∈ rest.map DetectedItem.name
    · rw [if_pos hmem, mem_detectedNames_dedupByName x rest]
      simp only [List.map_cons, List.mem_cons]
      constructor
      · exact Or.inr
      · rintro (rfl | h)
        · exact hmem
        · exact h
    · rw [if_neg hmem]
      simp only [List.map_cons, List.mem_cons]
      rw [mem_detectedNames_dedupByName x rest]

/-- C6: the matcher depends only on the set of detected names: removing
duplicate names from the input leaves the output unchanged, and any two
inputs with the same name set give the same output. -/
theorem compute_recipe_suggestions_dedup_names (d : List DetectedItem) :
    compute_recipe_suggestions (dedupByName d) = compute_recipe_suggestions d ∧
    ∀ d₁ d₂ : List DetectedItem,
      (∀ x, x ∈ detectedNames d₁ ↔ x ∈ detectedNames d₂) →
      compute_recipe_suggestions d₁ = compute_recipe_suggestions d₂ := by
  have ext : ∀ d₁ d₂ : List DetectedItem,
      (∀ x, x ∈ detectedNames d₁ ↔ x ∈ detectedNames d₂) →
      compute_recipe_suggestions d₁ = compute_recipe_suggestions d₂ := by
    intro d₁ d₂ h
    unfold compute_recipe_suggestions compute_recipe_suggestionsOver rawSuggestionsOver
    exact congrArg (List.insertionSort sugGE)
      (filterMap_congr_mem (fun r _ => mkSuggestion_congr (fun x _ => h x)))
  exact ⟨ext _ _ (fun x => mem_detectedNames_dedupByName x d), ext⟩

/-- Witness for C6's extensionality part: a doubled `bread` input equals the
single-occurrence input. -/
theorem compute_recipe_suggestions_dedup_names_witness :
    compute_recipe_suggestions [{ name := "bread", score := 1 }, { name := "bread", score := 2 }] =
      compute_recipe_suggestions [{ name := "bread", score := 1 }] :=
  (compute_recipe_suggestions_dedup_names []).2
    [{ name := "bread", score := 1 }, { name := "bread", score := 2 }]
    [{ name := "bread", score := 1 }]
    (fun x => by simp [detectedNames])

/-- C7: against the reference catalog, detecting `bread` and `cheese` yields
exactly: "Tomato Mozzarella Sandwich" first (have `["bread","cheese"]`,
missing `["lettuce","tomato"]`, total 4), then the two other bread/cheese
recipes, with "Garlic Bread" at index 2 (have `["bread"]`, missing
`["butter","garlic"]`, total 3) — so the sandwich is ranked before Garlic
Bread. -/
theorem compute_recipe_suggestions_bread_cheese :
    compute_recipe_suggestions [{ name := "bread", score := 1 }, { name := "cheese", score := 1 }] =
      [{ name := "Tomato Mozzarella Sandwich",
         ingredients := ["bread", "cheese", "tomato", "lettuce"],
         steps := [
           "Slice the bread and toast if desired.",
           "Wash and slice tomatoes and lettuce.",
           "Layer cheese, tomato, and lettuce on the bread.",
           "Season with salt, pepper and a bit of oil or butter."],
         hav := ["bread", "cheese"],
         missing := ["lettuce", "tomato"],
         total := 4 },
       { name := "Simple Cheese Omelette",
         ingredients := ["egg", "cheese", "butter"],
         steps := [
           "Beat the eggs in a bowl.",
           "Melt butter in a pan.",
           "Pour in the eggs and let them set.",
           "Add cheese, fold and cook briefly."],
         hav := ["cheese"],
         missing := ["butter", "egg"],
         total := 3 },
       { name := "Garlic Bread",
         ingredients := ["bread", "butter", "garlic"],
         steps := [
           "Preheat the oven.",
           "Mix butter with minced garlic.",
           "Spread the mixture on the bread.",
           "Bake until golden brown."],
         hav := ["bread"],
         missing := ["butter", "garlic"],
         total := 3 },
       { name := "Shrimp Pasta",
         ingredients := ["shrimp", "garlic", "butter", "pasta", "cheese"],
         steps := [
           "Cook pasta in salted water until al dente.",
           "Heat butter and garlic in a pan.",
           "Sear the shrimp briefly.",
           "Add pasta, toss, sprinkle with cheese and serve."],
         hav := ["cheese"],
         missing := ["butter", "garlic", "pasta", "shrimp"],
         total := 5 }] := by decide

/-- C8: against the reference catalog, detecting a superset of every
ingredient returns all four recipes, each with empty `missing` and `have`
listing exactly its ingredient set, ordered by `total` descending with the
3-3 tie broken by catalog order: Shrimp Pasta, Tomato Mozzarella Sandwich,
Simple Cheese Omelette, Garlic Bread. -/
theorem compute_recipe_suggestions_superset :
    compute_recipe_suggestions
        [{ name := "egg", score := 1 }, { name := "cheese", score := 1 },
         { name := "butter", score := 1 }, { name := "bread", score := 1 },
         { name := "garlic", score := 1 }, { name := "tomato", score := 1 },
         { name := "lettuce", score := 1 }, { name := "shrimp", score := 1 },
         { name := "pasta", score := 1 }] =
      [{ name := "Shrimp Pasta",
         ingredients := ["shrimp", "garlic", "butter", "pasta", "cheese"],
         steps := [
           "Cook pasta in salted water until al dente.",
           "Heat butter and garlic in a pan.",
           "Sear the shrimp briefly.",
           "Add pasta, toss, sprinkle with cheese and serve."],
         hav := ["butter", "cheese", "garlic", "pasta", "shrimp"],
         missing := [],
         total := 5 },
       { name := "Tomato Mozzarella Sandwich",
         ingredients := ["bread", "cheese", "tomato", "lettuce"],
         steps := [
           "Slice the bread and toast if desired.",
           "Wash and slice tomatoes and lettuce.",
           "Layer cheese, tomato, and lettuce on the bread.",
           "Season with salt, pepper and a bit of oil or butter."],
         hav := ["bread", "cheese", "lettuce", "tomato"],
         missing := [],
         total := 4 },
       { name := "Simple Cheese Omelette",
         ingredients := ["egg", "cheese", "butter"],
         steps := [
           "Beat the eggs in a bowl.",
           "Melt butter in a pan.",
           "Pour in the eggs and let them set.",
           "Add cheese, fold and cook briefly."],
         hav := ["butter", "cheese", "egg"],
         missing := [],
         total := 3 },
       { name := "Garlic Bread",
         ingredients := ["bread", "butter", "garlic"],
         steps := [
           "Preheat the oven.",
           "Mix butter with minced garlic.",
           "Spread the mixture on the bread.",
           "Bake until golden brown."],
         hav := ["bread", "butter", "garlic"],
         missing := [],
         total := 3 }] := by decide

/-- C9: every item returned by an accepting `call_clarifai` run carries a
score at least `CONFIDENCE_THRESHOLD` and the lower-cased name of one of the
response's concepts (with that concept's score), and the returned list is
sorted by score descending. -/
theorem call_clarifai_items_filtered_sorted (resp : ClarifaiResponse)
    (items : List DetectedItem) (h : call_clarifai resp = Except.ok items) :
    (∀ item ∈ items, CONFIDENCE_THRESHOLD ≤ item.score ∧
      ∃ c, (∃ o ∈ resp.outputs, c ∈ o.concepts) ∧
        item.name = lowerString c.name ∧ item.score = c.value) ∧
    items.Pairwise (fun a b => b.score ≤ a.score) := by
  unfold call_clarifai at h
  by_cases hst : resp.statusCode ≠ 10000
  · rw [if_pos hst] at h
    cases h
  · rw [if_neg hst] at h
    cases houts : resp.outputs with
    | nil =>
      rw [houts] at h
      obtain rfl : ([] : List DetectedItem) = items := Except.ok.inj h
      exact ⟨fun item hitem => absurd hitem (List.not_mem_nil item), List.Pairwise.nil⟩
    | cons o rest =>
      rw [houts] at h
      obtain rfl := (Except.ok.inj h).symm
      constructor
      · intro item hitem
        rw [List.mem_insertionSort] at hitem
        obtain ⟨c, hc, rfl⟩ := List.mem_map.mp hitem
        have hcf := List.mem_filter.mp hc
        exact ⟨by simpa using hcf.2,
          c, ⟨o, List.mem_cons_self o rest, hcf.1⟩, rfl, rfl⟩
      · exact (List.sorted_insertionSort itemGE _).imp (fun hab => hab)

/-- A sample accepted Clarifai response: success status, one output, three
concepts of which `banana` falls below the confidence threshold. -/
def sampleClarifaiResponse : ClarifaiResponse :=
  { statusCode := 10000,
    outputs := [{ concepts := [
      { name := "Apple", value := mkRat 9 10 },
      { name := "banana", value := mkRat 1 100 },
      { name := "Tomato", value := mkRat 1 2 }] }] }

/-- The items `call_clarifai` returns for `sampleClarifaiResponse`. -/
def sampleClarifaiItems : List DetectedItem :=
  [{ name := "apple", score := mkRat 9 10 }, { name := "tomato", score := mkRat 1 2 }]

/-- Witness for C9 at the sample response. -/
theorem call_clarifai_items_filtered_sorted_witness :
    (∀ item ∈ sampleClarifaiItems, CONFIDENCE_THRESHOLD ≤ item.score ∧
      ∃ c, (∃ o ∈ sampleClarifaiResponse.outputs, c ∈ o.concepts) ∧
        item.name = lowerString c.name ∧ item.score = c.value) ∧
    sampleClarifaiItems.Pairwise (fun a b => b.score ≤ a.score) :=
  call_clarifai_items_filtered_sorted sampleClarifaiResponse sampleClarifaiItems (by rfl)

/-- C10 counterexample: the claim "fails with 400 whenever the filtered
ingredient list is empty" is false as stated, because the missing-API-key
check runs first: with no key configured and an empty item list the endpoint
raises 500, not 400. -/
theorem ai_recipes_empty_input_no_key :
    ai_recipes none [] = AiRecipesStep.httpError 500 "OPENAI_API_KEY not configured" ∧
    ai_recipes none [] ≠ AiRecipesStep.httpError 400 "No ingredients provided" := by decide

/-- C10 (amended): the endpoint fails 500 whenever `OPENAI_API_KEY` is not
configured; when it is configured, it fails 400 ("No ingredients provided")
whenever the items, after dropping empty names, yield an empty ingredient
list; and it never reaches the OpenAI call (the only path that can return a
suggestion list) with an empty ingredient list. -/
theorem ai_recipes_validation (key : Option String) (items : List DetectedItem) :
    (key.getD "" = "" →
      ai_recipes key items = AiRecipesStep.httpError 500 "OPENAI_API_KEY not configured") ∧
    (key.getD "" ≠ "" →
      (items.filter (fun item => item.name ≠ "")).map (fun item => lowerString item.name) = [] →
      ai_recipes key items = AiRecipesStep.httpError 400 "No ingredients provided") ∧
    (∀ l, ai_recipes key items = AiRecipesStep.callOpenAI l → l ≠ []) := by
  unfold ai_recipes
  by_cases hk : key.getD "" = ""
  · rw [if_pos hk]
    exact ⟨fun _ => rfl, fun h => absurd hk h, fun l hl => by cases hl⟩
  · rw [if_neg hk]
    by_cases hil : ((items.filter (fun item => item.name ≠ "")).map
        (fun item => lowerString item.name)).isEmpty
    · rw [if_pos hil]
      exact ⟨fun h => absurd h hk, fun _ _ => rfl, fun l hl => by cases hl⟩
    · rw [if_neg hil]
      refine ⟨fun h => absurd h hk, fun _ h0 => absurd ?_ hil, fun l hl => ?_⟩
      · rw [h0]; rfl
      · obtain rfl := (AiRecipesStep.callOpenAI.inj hl).symm
        intro h0
        exact hil (by rw [h0]; rfl)

/-- Witness for the amended C10: a missing key gives 500, and with a key
configured an all-empty-names item list gives 400. -/
theorem ai_recipes_validation_witness :
    ai_recipes none [] = AiRecipesStep.httpError 500 "OPENAI_API_KEY not configured" ∧
    ai_recipes (some "sk-test") [{ name := "", score := 1 }] =
      AiRecipesStep.httpError 400 "No ingredients provided" :=
  ⟨(ai_recipes_validation none []).1 rfl,
   (ai_recipes_validation (some "sk-test") [{ name := "", score := 1 }]).2.1
     (by decide) (by decide)⟩
